import Mathlib

/-
Verification of the brush-transform core (app/core/gimpbrush-transform.c).

The per-pixel fixed-point arithmetic of the two resamplers is embedded over
Nat/Int exactly as written in the source (bit shifts, bit masks, unbounded
integers standing for the C `gint` values; where 32-bit overflow matters it
is analysed explicitly).  The double-precision matrix pipeline is embedded
over the rationals: every IEEE double is a rational number, and the spec
describes the matrix algebra over the reals.  The trigonometric evaluation
performed by the (out-of-excerpt) math library is abstracted by two function
parameters cosf and sinf, and the double constant G_PI by a rational
parameter gpi.
-/

/-- Constant `fraction_bits` from gimpbrush-transform.c (both resamplers): 12. -/
def fraction_bits : ℕ := 12

/-- Constant `int_multiple = pow(2, fraction_bits)` from gimpbrush-transform.c. -/
def int_multiple : ℕ := 2 ^ fraction_bits

/-- Constant `recovery_bits = 2 * fraction_bits` from gimpbrush-transform.c. -/
def recovery_bits : ℕ := 2 * fraction_bits

/-- Constant `fraction_bitmask = pow(2, fraction_bits) - 1` from gimpbrush-transform.c. -/
def fraction_bitmask : ℕ := 2 ^ fraction_bits - 1

/-- Modelled from the spec: GimpMatrix3 (libgimpmath/gimpmatrix.c is not part of
the excerpt).  Nine coefficients of a row-major 3x3 homogeneous 2D transform;
the C stores doubles, modelled as rationals. -/
structure GimpMatrix3 where
  m00 : ℚ
  m01 : ℚ
  m02 : ℚ
  m10 : ℚ
  m11 : ℚ
  m12 : ℚ
  m20 : ℚ
  m21 : ℚ
  m22 : ℚ
deriving DecidableEq

/-- Modelled from the spec: the identity matrix (`gimp_matrix3_identity`). -/
def gimp_matrix3_identity : GimpMatrix3 :=
  ⟨1, 0, 0, 0, 1, 0, 0, 0, 1⟩

/-- Modelled from the spec: 3x3 matrix product, row i of `a` against column j of
`b` (`gimp_matrix3_mult` composes with the new transform on the left). -/
def gimp_matrix3_mult (a b : GimpMatrix3) : GimpMatrix3 where
  m00 := a.m00 * b.m00 + a.m01 * b.m10 + a.m02 * b.m20
  m01 := a.m00 * b.m01 + a.m01 * b.m11 + a.m02 * b.m21
  m02 := a.m00 * b.m02 + a.m01 * b.m12 + a.m02 * b.m22
  m10 := a.m10 * b.m00 + a.m11 * b.m10 + a.m12 * b.m20
  m11 := a.m10 * b.m01 + a.m11 * b.m11 + a.m12 * b.m21
  m12 := a.m10 * b.m02 + a.m11 * b.m12 + a.m12 * b.m22
  m20 := a.m20 * b.m00 + a.m21 * b.m10 + a.m22 * b.m20
  m21 := a.m20 * b.m01 + a.m21 * b.m11 + a.m22 * b.m21
  m22 := a.m20 * b.m02 + a.m21 * b.m12 + a.m22 * b.m22

/-- Elementary translation matrix by (dx, dy). -/
def translateMatrix (dx dy : ℚ) : GimpMatrix3 :=
  ⟨1, 0, dx, 0, 1, dy, 0, 0, 1⟩

/-- Elementary rotation matrix with cosine `c` and sine `s` of the angle. -/
def rotateMatrix (c s : ℚ) : GimpMatrix3 :=
  ⟨c, -s, 0, s, c, 0, 0, 0, 1⟩

/-- Elementary scale matrix by (sx, sy). -/
def scaleMatrix (sx sy : ℚ) : GimpMatrix3 :=
  ⟨sx, 0, 0, 0, sy, 0, 0, 0, 1⟩

/-- Modelled from the spec: `gimp_matrix3_translate` left-composes a translation
onto the current matrix. -/
def gimp_matrix3_translate (m : GimpMatrix3) (dx dy : ℚ) : GimpMatrix3 :=
  gimp_matrix3_mult (translateMatrix dx dy) m

/-- Modelled from the spec: `gimp_matrix3_rotate` left-composes a rotation by the
angle theta (radians) onto the current matrix.  The math library's cosine and
sine are abstracted by the parameters `cosf` and `sinf`. -/
def gimp_matrix3_rotate (cosf sinf : ℚ → ℚ) (m : GimpMatrix3) (theta : ℚ) : GimpMatrix3 :=
  gimp_matrix3_mult (rotateMatrix (cosf theta) (sinf theta)) m

/-- Modelled from the spec: `gimp_matrix3_scale` left-composes an axis-aligned
scale onto the current matrix. -/
def gimp_matrix3_scale (m : GimpMatrix3) (sx sy : ℚ) : GimpMatrix3 :=
  gimp_matrix3_mult (scaleMatrix sx sy) m

/-- Modelled from the spec: `gimp_matrix3_transform_point` applies the matrix to
the homogeneous point (x, y, 1) and divides by the resulting homogeneous
coordinate (treated as 1 when it is 0, as the C function does). -/
def gimp_matrix3_transform_point (m : GimpMatrix3) (x y : ℚ) : ℚ × ℚ :=
  let w := m.m20 * x + m.m21 * y + m.m22
  let w' := if w = 0 then 1 else w
  ((m.m00 * x + m.m01 * y + m.m02) / w', (m.m10 * x + m.m11 * y + m.m12) / w')

/-- Determinant of a GimpMatrix3. -/
def gimp_matrix3_determinant (m : GimpMatrix3) : ℚ :=
  m.m00 * (m.m11 * m.m22 - m.m12 * m.m21)
    - m.m01 * (m.m10 * m.m22 - m.m12 * m.m20)
    + m.m02 * (m.m10 * m.m21 - m.m11 * m.m20)

/-- Modelled from the spec: `gimp_matrix3_invert` replaces the matrix by its
algebraic inverse (adjugate over determinant); a singular matrix is left
unchanged, matching the spec's "fails/undefined if determinant is zero" --
callers guarantee non-degenerate transforms. -/
def gimp_matrix3_invert (m : GimpMatrix3) : GimpMatrix3 :=
  let det := gimp_matrix3_determinant m
  if det = 0 then m
  else
    ⟨(m.m11 * m.m22 - m.m12 * m.m21) / det,
     (m.m02 * m.m21 - m.m01 * m.m22) / det,
     (m.m01 * m.m12 - m.m02 * m.m11) / det,
     (m.m12 * m.m20 - m.m10 * m.m22) / det,
     (m.m00 * m.m22 - m.m02 * m.m20) / det,
     (m.m02 * m.m10 - m.m00 * m.m12) / det,
     (m.m10 * m.m21 - m.m11 * m.m20) / det,
     (m.m01 * m.m20 - m.m00 * m.m21) / det,
     (m.m00 * m.m11 - m.m01 * m.m10) / det⟩

/-- Modelled from the spec: `gimp_matrix3_is_identity` compares all nine
coefficients exactly against the identity matrix. -/
def gimp_matrix3_is_identity (m : GimpMatrix3) : Bool :=
  decide (m = gimp_matrix3_identity)

/-- Modelled from the spec: a TempBuf raster (base/temp-buf.c is not part of the
excerpt): `width * height` elements in row-major order.  The element type `α`
is ℕ (one 8-bit sample) for masks and ℕ × ℕ × ℕ (three interleaved 8-bit
samples, modelled as a triple per pixel) for pixmaps. -/
structure TempBuf (α : Type) where
  width : ℕ
  height : ℕ
  data : List α

/-- Modelled from the spec: `temp_buf_copy` returns a byte-for-byte identical
copy of the raster (allocation identity is immaterial in the model). -/
def temp_buf_copy {α : Type} (b : TempBuf α) : TempBuf α := b

/-- A GimpBrush as used by gimpbrush-transform.c: a 1-channel mask raster and a
3-channel pixmap raster. -/
structure GimpBrush where
  mask : TempBuf ℕ
  pixmap : TempBuf (ℕ × ℕ × ℕ)

/-- Integer bounding box (x, y, width, height), all C `gint`. -/
structure BBox where
  x : ℤ
  y : ℤ
  width : ℤ
  height : ℤ
deriving DecidableEq

/-- Truncation of a rational toward zero: the C cast `(gint) d` of a double. -/
def truncQ (q : ℚ) : ℤ :=
  if q < 0 then ⌈q⌉ else ⌊q⌋

/-- Embedding of `gimp_brush_transform_matrix` (gimpbrush-transform.c lines
547-562): identity, translate by (-center_x, -center_y) with the centers
computed by C integer division `width / 2` of the mask dimensions, rotate by
`-2 * G_PI * angle`, translate back, then scale. -/
def gimp_brush_transform_matrix (cosf sinf : ℚ → ℚ) (gpi : ℚ) (brush : GimpBrush)
    (scale_x scale_y angle : ℚ) : GimpMatrix3 :=
  let center_x : ℚ := ((brush.mask.width / 2 : ℕ) : ℚ)
  let center_y : ℚ := ((brush.mask.height / 2 : ℕ) : ℚ)
  let m := gimp_matrix3_identity
  let m := gimp_matrix3_translate m (-center_x) (-center_y)
  let m := gimp_matrix3_rotate cosf sinf m (-2 * gpi * angle)
  let m := gimp_matrix3_translate m center_x center_y
  gimp_matrix3_scale m scale_x scale_y

/-- Embedding of `gimp_brush_transform_bounding_box` (gimpbrush-transform.c
lines 564-587): transform the four corners of the mask rectangle, take floors
of the minima and ceilings of the maxima. -/
def gimp_brush_transform_bounding_box (brush : GimpBrush) (matrix : GimpMatrix3) : BBox :=
  let w : ℚ := (brush.mask.width : ℚ)
  let h : ℚ := (brush.mask.height : ℚ)
  let p1 := gimp_matrix3_transform_point matrix 0 0
  let p2 := gimp_matrix3_transform_point matrix w 0
  let p3 := gimp_matrix3_transform_point matrix 0 h
  let p4 := gimp_matrix3_transform_point matrix w h
  let x := ⌊min (min p1.1 p2.1) (min p3.1 p4.1)⌋
  let y := ⌊min (min p1.2 p2.2) (min p3.2 p4.2)⌋
  { x := x
    y := y
    width := ⌈max (max p1.1 p2.1) (max p3.1 p4.1)⌉ - x
    height := ⌈max (max p1.2 p2.2) (max p3.2 p4.2)⌉ - y }

/-- Embedding of `gimp_brush_real_transform_size` (gimpbrush-transform.c lines
51-64): build the matrix, compute the bounding box, return its width and
height. -/
def gimp_brush_real_transform_size (cosf sinf : ℚ → ℚ) (gpi : ℚ) (brush : GimpBrush)
    (scale_x scale_y angle : ℚ) : ℤ × ℤ :=
  let matrix := gimp_brush_transform_matrix cosf sinf gpi brush scale_x scale_y angle
  let bb := gimp_brush_transform_bounding_box brush matrix
  (bb.width, bb.height)

/-- Embedding of the neighbor selection of both resamplers
(gimpbrush-transform.c lines 234-274 and 468-509): the base sample index
`src_walker` and the three clamp-selected neighbor indices
(current, next, below, below_next), as pixel indices into the row-major
`width * height` sample grid.  The pixmap variant multiplies every index by 3
for its interleaved channels; pixel indices are identical. -/
def neighborIndices (sw sh : ℕ) (posX posY : ℤ) : ℕ × ℕ × ℕ × ℕ :=
  let srcWalker := (posY.toNat >>> fraction_bits) * sw + (posX.toNat >>> fraction_bits)
  let heightm1 : ℤ := (sh : ℤ) * (int_multiple : ℤ) - (int_multiple : ℤ)
  let widthm1 : ℤ := (sw : ℤ) * (int_multiple : ℤ) - (int_multiple : ℤ)
  if posY > heightm1 ∧ posX > widthm1 then
    (srcWalker, srcWalker, srcWalker, srcWalker)
  else if posY > heightm1 then
    (srcWalker, srcWalker + 1, srcWalker, srcWalker + 1)
  else if posX > widthm1 then
    (srcWalker, srcWalker, srcWalker + sw, srcWalker + sw)
  else
    (srcWalker, srcWalker + 1, srcWalker + sw, srcWalker + sw + 1)

/-- Embedding of the bilinear accumulation of both resamplers
(gimpbrush-transform.c lines 281-283 and 516-526), before the final
`>> recovery_bits` shift: `opposite_x = int_multiple - distance_from_true_x`
and likewise for y. -/
def bilinearAccum (cur nxt blw bnx fx fy : ℕ) : ℕ :=
  let gx := int_multiple - fx
  let gy := int_multiple - fy
  (cur * gx + nxt * fx) * gy + (blw * gx + bnx * fx) * fy

/-- Embedding of the per-destination-pixel body of the mask resampler
(gimpbrush-transform.c lines 224-283): the in-bounds test, neighbor selection,
fractional masks and bilinear blend.  Reads use `List.getD` with default 0;
the C performs an unchecked pointer read at the same index. -/
def samplePixelMask (src : List ℕ) (sw sh : ℕ) (posX posY : ℤ) : ℕ :=
  if posX > (sw : ℤ) * (int_multiple : ℤ) ∨ posX < 0 ∨
      posY > (sh : ℤ) * (int_multiple : ℤ) ∨ posY < 0 then
    0
  else
    let n := neighborIndices sw sh posX posY
    let fx := posX.toNat &&& fraction_bitmask
    let fy := posY.toNat &&& fraction_bitmask
    bilinearAccum (src.getD n.1 0) (src.getD n.2.1 0) (src.getD n.2.2.1 0)
      (src.getD n.2.2.2 0) fx fy >>> recovery_bits

/-- Embedding of the per-destination-pixel body of the pixmap resampler
(gimpbrush-transform.c lines 456-526): identical to the mask body with the
blend applied to each of the three channels independently. -/
def samplePixelPixmap (src : List (ℕ × ℕ × ℕ)) (sw sh : ℕ) (posX posY : ℤ) : ℕ × ℕ × ℕ :=
  if posX > (sw : ℤ) * (int_multiple : ℤ) ∨ posX < 0 ∨
      posY > (sh : ℤ) * (int_multiple : ℤ) ∨ posY < 0 then
    (0, 0, 0)
  else
    let n := neighborIndices sw sh posX posY
    let cur := src.getD n.1 (0, 0, 0)
    let nxt := src.getD n.2.1 (0, 0, 0)
    let blw := src.getD n.2.2.1 (0, 0, 0)
    let bnx := src.getD n.2.2.2 (0, 0, 0)
    let fx := posX.toNat &&& fraction_bitmask
    let fy := posY.toNat &&& fraction_bitmask
    (bilinearAccum cur.1 nxt.1 blw.1 bnx.1 fx fy >>> recovery_bits,
     bilinearAccum cur.2.1 nxt.2.1 blw.2.1 bnx.2.1 fx fy >>> recovery_bits,
     bilinearAccum cur.2.2 nxt.2.2 blw.2.2 bnx.2.2 fx fy >>> recovery_bits)

/-- Inner column loop of the mask resampler (gimpbrush-transform.c lines
222-290): one destination row, walking the source position by the U delta. -/
def maskRow (src : List ℕ) (sw sh : ℕ) (ux uy : ℤ) : ℕ → ℤ → ℤ → List ℕ
  | 0, _, _ => []
  | n + 1, cx, cy => samplePixelMask src sw sh cx cy :: maskRow src sw sh ux uy n (cx + ux) (cy + uy)

/-- Outer row loop of the mask resampler (gimpbrush-transform.c lines 220-296):
each row starts at the row-start position, which advances by the V delta. -/
def maskRows (src : List ℕ) (sw sh dw : ℕ) (ux uy vx vy : ℤ) : ℕ → ℤ → ℤ → List ℕ
  | 0, _, _ => []
  | n + 1, rx, ry =>
      maskRow src sw sh ux uy dw rx ry ++ maskRows src sw sh dw ux uy vx vy n (rx + vx) (ry + vy)

/-- Inner column loop of the pixmap resampler (gimpbrush-transform.c lines
454-532). -/
def pixmapRow (src : List (ℕ × ℕ × ℕ)) (sw sh : ℕ) (ux uy : ℤ) :
    ℕ → ℤ → ℤ → List (ℕ × ℕ × ℕ)
  | 0, _, _ => []
  | n + 1, cx, cy =>
      samplePixelPixmap src sw sh cx cy :: pixmapRow src sw sh ux uy n (cx + ux) (cy + uy)

/-- Outer row loop of the pixmap resampler (gimpbrush-transform.c lines
452-538). -/
def pixmapRows (src : List (ℕ × ℕ × ℕ)) (sw sh dw : ℕ) (ux uy vx vy : ℤ) :
    ℕ → ℤ → ℤ → List (ℕ × ℕ × ℕ)
  | 0, _, _ => []
  | n + 1, rx, ry =>
      pixmapRow src sw sh ux uy dw rx ry ++ pixmapRows src sw sh dw ux uy vx vy n (rx + vx) (ry + vy)

/-- The scan-line walk parameters shared verbatim by both resamplers
(gimpbrush-transform.c lines 165-218 and 405-450): translate the matrix to the
bounding-box origin, invert it, map the destination corners back to source
space, and truncate the per-step deltas and the start position to fixed
point. -/
structure WalkParams where
  ux : ℤ
  uy : ℤ
  vx : ℤ
  vy : ℤ
  startX : ℤ
  startY : ℤ

/-- Computation of the walk parameters from the forward matrix and the
destination bounding box; the bottom-right corner is also transformed by the C
code but never used. -/
def transformWalkParams (matrix : GimpMatrix3) (bb : BBox) : WalkParams :=
  let m := gimp_matrix3_translate matrix (-(bb.x : ℚ)) (-(bb.y : ℚ))
  let m := gimp_matrix3_invert m
  let tl := gimp_matrix3_transform_point m 0 0
  let tr := gimp_matrix3_transform_point m (bb.width : ℚ) 0
  let bl := gimp_matrix3_transform_point m 0 (bb.height : ℚ)
  { ux := truncQ ((tr.1 - tl.1) / (bb.width : ℚ) * (int_multiple : ℚ))
    uy := truncQ ((tr.2 - tl.2) / (bb.width : ℚ) * (int_multiple : ℚ))
    vx := truncQ ((bl.1 - tl.1) / (bb.height : ℚ) * (int_multiple : ℚ))
    vy := truncQ ((bl.2 - tl.2) / (bb.height : ℚ) * (int_multiple : ℚ))
    startX := truncQ (tl.1 * (int_multiple : ℚ))
    startY := truncQ (tl.2 * (int_multiple : ℚ)) }

/-- Embedding of `gimp_brush_real_transform_mask` (gimpbrush-transform.c lines
87-299): build the matrix; on the identity fast path return a copy of the
mask; otherwise size the destination by the bounding box and run the
fixed-point scan-line walk. -/
def gimp_brush_real_transform_mask (cosf sinf : ℚ → ℚ) (gpi : ℚ) (brush : GimpBrush)
    (scale_x scale_y angle : ℚ) : TempBuf ℕ :=
  let matrix := gimp_brush_transform_matrix cosf sinf gpi brush scale_x scale_y angle
  if gimp_matrix3_is_identity matrix then temp_buf_copy brush.mask
  else
    let bb := gimp_brush_transform_bounding_box brush matrix
    let p := transformWalkParams matrix bb
    { width := bb.width.toNat
      height := bb.height.toNat
      data := maskRows brush.mask.data brush.mask.width brush.mask.height bb.width.toNat
        p.ux p.uy p.vx p.vy bb.height.toNat p.startX p.startY }

/-- Embedding of `gimp_brush_real_transform_pixmap` (gimpbrush-transform.c
lines 327-542): identical pipeline over the 3-channel pixmap; note that the
matrix and the bounding box are computed from the mask dimensions, while the
source samples come from the pixmap. -/
def gimp_brush_real_transform_pixmap (cosf sinf : ℚ → ℚ) (gpi : ℚ) (brush : GimpBrush)
    (scale_x scale_y angle : ℚ) : TempBuf (ℕ × ℕ × ℕ) :=
  let matrix := gimp_brush_transform_matrix cosf sinf gpi brush scale_x scale_y angle
  if gimp_matrix3_is_identity matrix then temp_buf_copy brush.pixmap
  else
    let bb := gimp_brush_transform_bounding_box brush matrix
    let p := transformWalkParams matrix bb
    { width := bb.width.toNat
      height := bb.height.toNat
      data := pixmapRows brush.pixmap.data brush.pixmap.width brush.pixmap.height bb.width.toNat
        p.ux p.uy p.vx p.vy bb.height.toNat p.startX p.startY }

lemma transform_point_identity (x y : ℚ) :
    gimp_matrix3_transform_point gimp_matrix3_identity x y = (x, y) := by
  simp [gimp_matrix3_transform_point, gimp_matrix3_identity]

lemma min4_le_each (a b c d : ℚ) :
    min (min a b) (min c d) ≤ a ∧ min (min a b) (min c d) ≤ b ∧
    min (min a b) (min c d) ≤ c ∧ min (min a b) (min c d) ≤ d := by
  refine ⟨?_, ?_, ?_, ?_⟩ <;> simp [min_le_iff]

lemma each_le_max4 (a b c d : ℚ) :
    a ≤ max (max a b) (max c d) ∧ b ≤ max (max a b) (max c d) ∧
    c ≤ max (max a b) (max c d) ∧ d ≤ max (max a b) (max c d) := by
  refine ⟨?_, ?_, ?_, ?_⟩ <;> simp [le_max_iff]

lemma floor_cast_le_of_min (m p : ℚ) (h : m ≤ p) : ((⌊m⌋ : ℤ) : ℚ) ≤ p :=
  le_trans (Int.floor_le m) h

lemma le_add_ceil_of_le_max (m p : ℚ) {u : ℚ} (h : p ≤ m) :
    p ≤ ((⌊u⌋ + (⌈m⌉ - ⌊u⌋) : ℤ) : ℚ) := by
  have he : (⌊u⌋ + (⌈m⌉ - ⌊u⌋) : ℤ) = ⌈m⌉ := by ring
  rw [he]
  exact le_trans h (Int.le_ceil m)

lemma bounding_box_nonneg (brush : GimpBrush) (matrix : GimpMatrix3) :
    0 ≤ (gimp_brush_transform_bounding_box brush matrix).width ∧
    0 ≤ (gimp_brush_transform_bounding_box brush matrix).height := by
  simp only [gimp_brush_transform_bounding_box]
  constructor <;>
  · rw [sub_nonneg]
    refine le_trans (Int.floor_le_floor ?_) (Int.floor_le_ceil _)
    refine le_trans (min_le_left _ _) (le_trans (min_le_left _ _) ?_)
    exact le_trans (le_max_left _ _) (le_max_left _ _)

/-- C2: for every source width w, height h (taken from the brush mask) and every
matrix, the bounding-box computation transforms exactly the four corners
(0,0), (w,0), (0,h), (w,h) and returns x = floor of the minimum transformed x,
y = floor of the minimum transformed y, width = ceil of the maximum
transformed x minus x, height = ceil of the maximum transformed y minus y;
consequently the box contains all four transformed corners. -/
theorem C2_bounding_box (brush : GimpBrush) (matrix : GimpMatrix3) :
    gimp_brush_transform_bounding_box brush matrix =
      { x := ⌊min (min (gimp_matrix3_transform_point matrix 0 0).1
                       (gimp_matrix3_transform_point matrix (brush.mask.width : ℚ) 0).1)
                  (min (gimp_matrix3_transform_point matrix 0 (brush.mask.height : ℚ)).1
                       (gimp_matrix3_transform_point matrix (brush.mask.width : ℚ)
                         (brush.mask.height : ℚ)).1)⌋
        y := ⌊min (min (gimp_matrix3_transform_point matrix 0 0).2
                       (gimp_matrix3_transform_point matrix (brush.mask.width : ℚ) 0).2)
                  (min (gimp_matrix3_transform_point matrix 0 (brush.mask.height : ℚ)).2
                       (gimp_matrix3_transform_point matrix (brush.mask.width : ℚ)
                         (brush.mask.height : ℚ)).2)⌋
        width := ⌈max (max (gimp_matrix3_transform_point matrix 0 0).1
                           (gimp_matrix3_transform_point matrix (brush.mask.width : ℚ) 0).1)
                      (max (gimp_matrix3_transform_point matrix 0 (brush.mask.height : ℚ)).1
                           (gimp_matrix3_transform_point matrix (brush.mask.width : ℚ)
                             (brush.mask.height : ℚ)).1)⌉ -
          ⌊min (min (gimp_matrix3_transform_point matrix 0 0).1
                    (gimp_matrix3_transform_point matrix (brush.mask.width : ℚ) 0).1)
               (min (gimp_matrix3_transform_point matrix 0 (brush.mask.height : ℚ)).1
                    (gimp_matrix3_transform_point matrix (brush.mask.width : ℚ)
                      (brush.mask.height : ℚ)).1)⌋
        height := ⌈max (max (gimp_matrix3_transform_point matrix 0 0).2
                            (gimp_matrix3_transform_point matrix (brush.mask.width : ℚ) 0).2)
                       (max (gimp_matrix3_transform_point matrix 0 (brush.mask.height : ℚ)).2
                            (gimp_matrix3_transform_point matrix (brush.mask.width : ℚ)
                              (brush.mask.height : ℚ)).2)⌉ -
          ⌊min (min (gimp_matrix3_transform_point matrix 0 0).2
                    (gimp_matrix3_transform_point matrix (brush.mask.width : ℚ) 0).2)
               (min (gimp_matrix3_transform_point matrix 0 (brush.mask.height : ℚ)).2
                    (gimp_matrix3_transform_point matrix (brush.mask.width : ℚ)
                      (brush.mask.height : ℚ)).2)⌋ } ∧
    ∀ p ∈ [gimp_matrix3_transform_point matrix 0 0,
           gimp_matrix3_transform_point matrix (brush.mask.width : ℚ) 0,
           gimp_matrix3_transform_point matrix 0 (brush.mask.height : ℚ),
           gimp_matrix3_transform_point matrix (brush.mask.width : ℚ) (brush.mask.height : ℚ)],
      ((gimp_brush_transform_bounding_box brush matrix).x : ℚ) ≤ p.1 ∧
      p.1 ≤ ((gimp_brush_transform_bounding_box brush matrix).x +
             (gimp_brush_transform_bounding_box brush matrix).width : ℤ) ∧
      ((gimp_brush_transform_bounding_box brush matrix).y : ℚ) ≤ p.2 ∧
      p.2 ≤ ((gimp_brush_transform_bounding_box brush matrix).y +
             (gimp_brush_transform_bounding_box brush matrix).height : ℤ) := by
  constructor
  · rfl
  · intro p hp
    simp only [gimp_brush_transform_bounding_box]
    simp only [List.mem_cons, List.not_mem_nil, or_false] at hp
    obtain h1 := min4_le_each (gimp_matrix3_transform_point matrix 0 0).1
      (gimp_matrix3_transform_point matrix (brush.mask.width : ℚ) 0).1
      (gimp_matrix3_transform_point matrix 0 (brush.mask.height : ℚ)).1
      (gimp_matrix3_transform_point matrix (brush.mask.width : ℚ) (brush.mask.height : ℚ)).1
    obtain h2 := each_le_max4 (gimp_matrix3_transform_point matrix 0 0).1
      (gimp_matrix3_transform_point matrix (brush.mask.width : ℚ) 0).1
      (gimp_matrix3_transform_point matrix 0 (brush.mask.height : ℚ)).1
      (gimp_matrix3_transform_point matrix (brush.mask.width : ℚ) (brush.mask.height : ℚ)).1
    obtain h3 := min4_le_each (gimp_matrix3_transform_point matrix 0 0).2
      (gimp_matrix3_transform_point matrix (brush.mask.width : ℚ) 0).2
      (gimp_matrix3_transform_point matrix 0 (brush.mask.height : ℚ)).2
      (gimp_matrix3_transform_point matrix (brush.mask.width : ℚ) (brush.mask.height : ℚ)).2
    obtain h4 := each_le_max4 (gimp_matrix3_transform_point matrix 0 0).2
      (gimp_matrix3_transform_point matrix (brush.mask.width : ℚ) 0).2
      (gimp_matrix3_transform_point matrix 0 (brush.mask.height : ℚ)).2
      (gimp_matrix3_transform_point matrix (brush.mask.width : ℚ) (brush.mask.height : ℚ)).2
    rcases hp with hp | hp | hp | hp <;> subst hp <;>
      exact ⟨floor_cast_le_of_min _ _ (by tauto), le_add_ceil_of_le_max _ _ (by tauto),
             floor_cast_le_of_min _ _ (by tauto), le_add_ceil_of_le_max _ _ (by tauto)⟩

/-- C3: for every brush and every scale_x, scale_y, angle, the transform matrix
is built by composing, in order: identity, translate by the negated centers
(center = floor(dimension/2) of the mask, by C integer division), rotate by
-angle full turns (the radian angle -2 * G_PI * angle handed to the rotation),
translate back, then scale; consequently a point is rotated about the mask
center and then scaled in the untranslated frame. -/
theorem C3_transform_matrix (cosf sinf : ℚ → ℚ) (gpi : ℚ) (brush : GimpBrush)
    (scale_x scale_y angle : ℚ) :
    gimp_brush_transform_matrix cosf sinf gpi brush scale_x scale_y angle =
      gimp_matrix3_mult (scaleMatrix scale_x scale_y)
        (gimp_matrix3_mult
          (translateMatrix ((brush.mask.width / 2 : ℕ) : ℚ) ((brush.mask.height / 2 : ℕ) : ℚ))
          (gimp_matrix3_mult
            (rotateMatrix (cosf (-2 * gpi * angle)) (sinf (-2 * gpi * angle)))
            (gimp_matrix3_mult
              (translateMatrix (-((brush.mask.width / 2 : ℕ) : ℚ))
                (-((brush.mask.height / 2 : ℕ) : ℚ)))
              gimp_matrix3_identity))) ∧
    ∀ x y : ℚ,
      gimp_matrix3_transform_point
          (gimp_brush_transform_matrix cosf sinf gpi brush scale_x scale_y angle) x y =
        (scale_x * (cosf (-2 * gpi * angle) * (x - ((brush.mask.width / 2 : ℕ) : ℚ))
            - sinf (-2 * gpi * angle) * (y - ((brush.mask.height / 2 : ℕ) : ℚ))
            + ((brush.mask.width / 2 : ℕ) : ℚ)),
         scale_y * (sinf (-2 * gpi * angle) * (x - ((brush.mask.width / 2 : ℕ) : ℚ))
            + cosf (-2 * gpi * angle) * (y - ((brush.mask.height / 2 : ℕ) : ℚ))
            + ((brush.mask.height / 2 : ℕ) : ℚ))) := by
  constructor
  · rfl
  · intro x y
    simp only [gimp_brush_transform_matrix, gimp_matrix3_translate, gimp_matrix3_rotate,
      gimp_matrix3_scale, gimp_matrix3_mult, translateMatrix, rotateMatrix, scaleMatrix,
      gimp_matrix3_identity, gimp_matrix3_transform_point]
    norm_num
    constructor <;> ring

lemma and_fraction_bitmask_eq_mod (m : ℕ) : m &&& fraction_bitmask = m % 2 ^ 12 := by
  rw [fraction_bitmask, fraction_bits]
  exact Nat.and_pow_two_sub_one_eq_mod m 12

lemma shiftRight_recovery_eq_div (m : ℕ) : m >>> recovery_bits = m / 2 ^ 24 := by
  rw [recovery_bits, fraction_bits]
  norm_num [Nat.shiftRight_eq_div_pow]

lemma not_oob_of_in_bounds {sw sh : ℕ} {px py : ℤ}
    (h : 0 ≤ px ∧ px ≤ (sw : ℤ) * (int_multiple : ℤ) ∧
         0 ≤ py ∧ py ≤ (sh : ℤ) * (int_multiple : ℤ)) :
    ¬(px > (sw : ℤ) * (int_multiple : ℤ) ∨ px < 0 ∨
      py > (sh : ℤ) * (int_multiple : ℤ) ∨ py < 0) := by
  push_neg
  exact ⟨h.2.1, h.1, h.2.2.2, h.2.2.1⟩

/-- C4: for every in-bounds destination pixel of either resampler, with F = 12,
the fractional offsets are the low 12 bits of the position (equal to the
position mod 2^12), the complements are 2^12 minus them, and each written
channel value is the fixed-point bilinear blend of the four selected neighbor
samples shifted down by 2F bits (equal to division by 2^24). -/
theorem C4_bilinear_blend (srcm : List ℕ) (srcp : List (ℕ × ℕ × ℕ)) (sw sh : ℕ) (px py : ℤ)
    (h : 0 ≤ px ∧ px ≤ (sw : ℤ) * (int_multiple : ℤ) ∧
         0 ≤ py ∧ py ≤ (sh : ℤ) * (int_multiple : ℤ)) :
    samplePixelMask srcm sw sh px py =
      ((srcm.getD (neighborIndices sw sh px py).1 0 * (2 ^ 12 - px.toNat % 2 ^ 12)
          + srcm.getD (neighborIndices sw sh px py).2.1 0 * (px.toNat % 2 ^ 12))
            * (2 ^ 12 - py.toNat % 2 ^ 12)
        + (srcm.getD (neighborIndices sw sh px py).2.2.1 0 * (2 ^ 12 - px.toNat % 2 ^ 12)
            + srcm.getD (neighborIndices sw sh px py).2.2.2 0 * (px.toNat % 2 ^ 12))
              * (py.toNat % 2 ^ 12)) / 2 ^ 24 ∧
    samplePixelPixmap srcp sw sh px py =
      ((((srcp.getD (neighborIndices sw sh px py).1 (0, 0, 0)).1 * (2 ^ 12 - px.toNat % 2 ^ 12)
          + (srcp.getD (neighborIndices sw sh px py).2.1 (0, 0, 0)).1 * (px.toNat % 2 ^ 12))
            * (2 ^ 12 - py.toNat % 2 ^ 12)
        + ((srcp.getD (neighborIndices sw sh px py).2.2.1 (0, 0, 0)).1 * (2 ^ 12 - px.toNat % 2 ^ 12)
            + (srcp.getD (neighborIndices sw sh px py).2.2.2 (0, 0, 0)).1 * (px.toNat % 2 ^ 12))
              * (py.toNat % 2 ^ 12)) / 2 ^ 24,
       (((srcp.getD (neighborIndices sw sh px py).1 (0, 0, 0)).2.1 * (2 ^ 12 - px.toNat % 2 ^ 12)
          + (srcp.getD (neighborIndices sw sh px py).2.1 (0, 0, 0)).2.1 * (px.toNat % 2 ^ 12))
            * (2 ^ 12 - py.toNat % 2 ^ 12)
        + ((srcp.getD (neighborIndices sw sh px py).2.2.1 (0, 0, 0)).2.1 * (2 ^ 12 - px.toNat % 2 ^ 12)
            + (srcp.getD (neighborIndices sw sh px py).2.2.2 (0, 0, 0)).2.1 * (px.toNat % 2 ^ 12))
              * (py.toNat % 2 ^ 12)) / 2 ^ 24,
       (((srcp.getD (neighborIndices sw sh px py).1 (0, 0, 0)).2.2 * (2 ^ 12 - px.toNat % 2 ^ 12)
          + (srcp.getD (neighborIndices sw sh px py).2.1 (0, 0, 0)).2.2 * (px.toNat % 2 ^ 12))
            * (2 ^ 12 - py.toNat % 2 ^ 12)
        + ((srcp.getD (neighborIndices sw sh px py).2.2.1 (0, 0, 0)).2.2 * (2 ^ 12 - px.toNat % 2 ^ 12)
            + (srcp.getD (neighborIndices sw sh px py).2.2.2 (0, 0, 0)).2.2 * (px.toNat % 2 ^ 12))
              * (py.toNat % 2 ^ 12)) / 2 ^ 24) := by
  have hnot := not_oob_of_in_bounds h
  constructor
  · rw [samplePixelMask, if_neg hnot]
    simp only [bilinearAccum, and_fraction_bitmask_eq_mod, shiftRight_recovery_eq_div,
      int_multiple, fraction_bits]
  · rw [samplePixelPixmap, if_neg hnot]
    simp only [bilinearAccum, and_fraction_bitmask_eq_mod, shiftRight_recovery_eq_div,
      int_multiple, fraction_bits]

/-- Witness for C4 at a concrete in-bounds pixel: a 2x2 raster sampled at the
fixed-point position (2048, 2048), the center of the top-left cell. -/
theorem C4_bilinear_blend_witness :
    samplePixelMask [10, 20, 30, 40] 2 2 2048 2048 =
      (((List.getD [10, 20, 30, 40] (neighborIndices 2 2 2048 2048).1 0
            * (2 ^ 12 - (2048 : ℤ).toNat % 2 ^ 12)
          + List.getD [10, 20, 30, 40] (neighborIndices 2 2 2048 2048).2.1 0
            * ((2048 : ℤ).toNat % 2 ^ 12)) * (2 ^ 12 - (2048 : ℤ).toNat % 2 ^ 12)
        + (List.getD [10, 20, 30, 40] (neighborIndices 2 2 2048 2048).2.2.1 0
            * (2 ^ 12 - (2048 : ℤ).toNat % 2 ^ 12)
          + List.getD [10, 20, 30, 40] (neighborIndices 2 2 2048 2048).2.2.2 0
            * ((2048 : ℤ).toNat % 2 ^ 12)) * ((2048 : ℤ).toNat % 2 ^ 12)) / 2 ^ 24) :=
  (C4_bilinear_blend [10, 20, 30, 40] [(10, 0, 0)] 2 2 2048 2048 (by decide)).1

/-- C5: every destination pixel whose fixed-point source position falls outside
the closed rectangle [0, sw * 2^F] x [0, sh * 2^F] is written as an exactly
zero-valued pixel by both resamplers, never a clamped edge sample. -/
theorem C5_out_of_bounds_zero (srcm : List ℕ) (srcp : List (ℕ × ℕ × ℕ)) (sw sh : ℕ)
    (px py : ℤ)
    (h : ¬(0 ≤ px ∧ px ≤ (sw : ℤ) * (int_multiple : ℤ) ∧
           0 ≤ py ∧ py ≤ (sh : ℤ) * (int_multiple : ℤ))) :
    samplePixelMask srcm sw sh px py = 0 ∧ samplePixelPixmap srcp sw sh px py = (0, 0, 0) := by
  have hcond : px > (sw : ℤ) * (int_multiple : ℤ) ∨ px < 0 ∨
      py > (sh : ℤ) * (int_multiple : ℤ) ∨ py < 0 := by
    by_contra hc
    push_neg at hc
    exact h ⟨hc.2.1, hc.1, hc.2.2.2, hc.2.2.1⟩
  constructor
  · rw [samplePixelMask, if_pos hcond]
  · rw [samplePixelPixmap, if_pos hcond]

/-- Witness for C5 at a concrete out-of-bounds position: x = -5 lies left of the
source rectangle of a 1x1 raster. -/
theorem C5_out_of_bounds_zero_witness :
    samplePixelMask [7] 1 1 (-5) 0 = 0 ∧ samplePixelPixmap [(1, 2, 3)] 1 1 (-5) 0 = (0, 0, 0) :=
  C5_out_of_bounds_zero [7] [(1, 2, 3)] 1 1 (-5) 0 (by decide)

/-- Counterexample to C6 as stated: on a 2x2 source at the in-bounds fixed-point
position (0, 4096) = (0, (sh-1) * 2^F), the cell row floor_y = 1 is the last
source row, yet the resamplers do NOT reuse the current pixel for the below
neighbors: they select the row below (sample index 4, outside the 4-sample
grid), because the code clamps on pos_y > (sh-1) * 2^F, which is false at
exactly (sh-1) * 2^F. -/
theorem C6_counterexample :
    (0 ≤ (0 : ℤ) ∧ (0 : ℤ) ≤ (2 : ℕ) * (int_multiple : ℤ) ∧
     0 ≤ (4096 : ℤ) ∧ (4096 : ℤ) ≤ (2 : ℕ) * (int_multiple : ℤ)) ∧
    (4096 : ℤ).toNat >>> fraction_bits = 2 - 1 ∧
    (neighborIndices 2 2 0 4096).2.2.1 ≠ (neighborIndices 2 2 0 4096).1 ∧
    (neighborIndices 2 2 0 4096).2.2.2 ≠ (neighborIndices 2 2 0 4096).2.1 := by
  decide

/-- C6 as amended: the clamping of the below/right neighbors is decided by the
strict fixed-point comparisons pos_y > (sh-1) * 2^F and pos_x > (sw-1) * 2^F,
not by floor_y/floor_x being on the last row/column.  Whenever pos_y exceeds
(sh-1) * 2^F the below neighbors reuse current/right; otherwise they lie one
source row (sw samples) further; symmetrically in x; when both clamps hold all
four neighbors collapse to the current sample. -/
theorem C6_neighbor_clamping (sw sh : ℕ) (px py : ℤ)
    (_h : 0 ≤ px ∧ px ≤ (sw : ℤ) * (int_multiple : ℤ) ∧
          0 ≤ py ∧ py ≤ (sh : ℤ) * (int_multiple : ℤ)) :
    (py > (sh : ℤ) * (int_multiple : ℤ) - (int_multiple : ℤ) →
      (neighborIndices sw sh px py).2.2.1 = (neighborIndices sw sh px py).1 ∧
      (neighborIndices sw sh px py).2.2.2 = (neighborIndices sw sh px py).2.1) ∧
    (py ≤ (sh : ℤ) * (int_multiple : ℤ) - (int_multiple : ℤ) →
      (neighborIndices sw sh px py).2.2.1 = (neighborIndices sw sh px py).1 + sw ∧
      (neighborIndices sw sh px py).2.2.2 = (neighborIndices sw sh px py).2.1 + sw) ∧
    (px > (sw : ℤ) * (int_multiple : ℤ) - (int_multiple : ℤ) →
      (neighborIndices sw sh px py).2.1 = (neighborIndices sw sh px py).1 ∧
      (neighborIndices sw sh px py).2.2.2 = (neighborIndices sw sh px py).2.2.1) ∧
    (px ≤ (sw : ℤ) * (int_multiple : ℤ) - (int_multiple : ℤ) →
      (neighborIndices sw sh px py).2.1 = (neighborIndices sw sh px py).1 + 1 ∧
      (neighborIndices sw sh px py).2.2.2 = (neighborIndices sw sh px py).2.2.1 + 1) := by
  rw [neighborIndices]
  split
  · rename_i h1
    refine ⟨fun _ => ⟨rfl, rfl⟩, fun hy => absurd h1.1 (not_lt.mpr hy), fun _ => ⟨rfl, rfl⟩,
            fun hx => absurd h1.2 (not_lt.mpr hx)⟩
  · rename_i h1
    split
    · rename_i h2
      have hx : ¬px > (sw : ℤ) * (int_multiple : ℤ) - (int_multiple : ℤ) := fun hx' =>
        h1 ⟨h2, hx'⟩
      refine ⟨fun _ => ⟨rfl, rfl⟩, fun hy => absurd h2 (not_lt.mpr hy),
              fun hx' => absurd hx' hx, fun _ => ⟨rfl, rfl⟩⟩
    · rename_i h2
      split
      · rename_i h3
        refine ⟨fun hy => absurd hy h2, fun _ => ⟨rfl, rfl⟩, fun _ => ⟨rfl, rfl⟩,
                fun hx => absurd h3 (not_lt.mpr hx)⟩
      · rename_i h3
        refine ⟨fun hy => absurd hy h2, fun _ => ⟨rfl, by simp; omega⟩,
                fun hx' => absurd hx' h3, fun _ => ⟨rfl, rfl⟩⟩

/-- Witness for the amended C6 at the interior position (2048, 2048) of a 2x2
source, where no clamp triggers. -/
theorem C6_neighbor_clamping_witness :
    ((2048 : ℤ) > (2 : ℕ) * (int_multiple : ℤ) - (int_multiple : ℤ) →
      (neighborIndices 2 2 2048 2048).2.2.1 = (neighborIndices 2 2 2048 2048).1 ∧
      (neighborIndices 2 2 2048 2048).2.2.2 = (neighborIndices 2 2 2048 2048).2.1) ∧
    ((2048 : ℤ) ≤ (2 : ℕ) * (int_multiple : ℤ) - (int_multiple : ℤ) →
      (neighborIndices 2 2 2048 2048).2.2.1 = (neighborIndices 2 2 2048 2048).1 + 2 ∧
      (neighborIndices 2 2 2048 2048).2.2.2 = (neighborIndices 2 2 2048 2048).2.1 + 2) ∧
    ((2048 : ℤ) > (2 : ℕ) * (int_multiple : ℤ) - (int_multiple : ℤ) →
      (neighborIndices 2 2 2048 2048).2.1 = (neighborIndices 2 2 2048 2048).1 ∧
      (neighborIndices 2 2 2048 2048).2.2.2 = (neighborIndices 2 2 2048 2048).2.2.1) ∧
    ((2048 : ℤ) ≤ (2 : ℕ) * (int_multiple : ℤ) - (int_multiple : ℤ) →
      (neighborIndices 2 2 2048 2048).2.1 = (neighborIndices 2 2 2048 2048).1 + 1 ∧
      (neighborIndices 2 2 2048 2048).2.2.2 = (neighborIndices 2 2 2048 2048).2.2.1 + 1) :=
  C6_neighbor_clamping 2 2 2048 2048 (by decide)

lemma bilinearAccum_le (M cur nxt blw bnx fx fy : ℕ) (hc : cur ≤ M) (hn : nxt ≤ M)
    (hb : blw ≤ M) (hx : bnx ≤ M) (hfx : fx ≤ 4095) (hfy : fy ≤ 4095) :
    bilinearAccum cur nxt blw bnx fx fy ≤ M * 2 ^ 24 := by
  rw [bilinearAccum]
  have him : int_multiple = 4096 := rfl
  rw [him]
  have hgx : 4096 - fx + fx = 4096 := by omega
  have hgy : 4096 - fy + fy = 4096 := by omega
  calc (cur * (4096 - fx) + nxt * fx) * (4096 - fy) + (blw * (4096 - fx) + bnx * fx) * fy
      ≤ (M * (4096 - fx) + M * fx) * (4096 - fy) + (M * (4096 - fx) + M * fx) * fy := by
        refine Nat.add_le_add (Nat.mul_le_mul_right _ ?_) (Nat.mul_le_mul_right _ ?_) <;>
          exact Nat.add_le_add (Nat.mul_le_mul_right _ (by assumption))
            (Nat.mul_le_mul_right _ (by assumption))
    _ = M * ((4096 - fx + fx) * ((4096 - fy) + fy)) := by ring
    _ = M * 2 ^ 24 := by
        rw [hgx, hgy]
        norm_num

/-- Counterexample to C7 as stated: with all four samples at the 8-bit maximum
255 and zero fractional offsets (as at fixed-point position (0, 0) over an
all-255 source), the pre-shift accumulation equals 255 * 2^24 = 4278190080,
which exceeds the signed 32-bit maximum 2^31 - 1 = 2147483647, so the C `gint`
accumulation overflows. -/
theorem C7_counterexample :
    bilinearAccum 255 255 255 255 0 0 = 4278190080 ∧
    ¬bilinearAccum 255 255 255 255 0 0 ≤ 2 ^ 31 - 1 := by
  constructor
  · rfl
  · decide

/-- C7 as amended: the pre-shift bilinear accumulation of 8-bit samples is
bounded by 255 * 2^24 < 2^33, so it needs a 33-bit-safe signed accumulator; it
does NOT always fit the signed 32-bit range of the implementation's `gint`
(see the counterexample), but it does whenever all four samples are at most
127. -/
theorem C7_accumulator_bound (cur nxt blw bnx fx fy : ℕ)
    (hc : cur ≤ 255) (hn : nxt ≤ 255) (hb : blw ≤ 255) (hx : bnx ≤ 255)
    (hfx : fx ≤ 4095) (hfy : fy ≤ 4095) :
    bilinearAccum cur nxt blw bnx fx fy ≤ 255 * 2 ^ 24 ∧
    (255 * 2 ^ 24 : ℕ) < 2 ^ 33 ∧
    (cur ≤ 127 → nxt ≤ 127 → blw ≤ 127 → bnx ≤ 127 →
      bilinearAccum cur nxt blw bnx fx fy ≤ 2 ^ 31 - 1) := by
  refine ⟨bilinearAccum_le 255 cur nxt blw bnx fx fy hc hn hb hx hfx hfy, by decide, ?_⟩
  intro h1 h2 h3 h4
  have := bilinearAccum_le 127 cur nxt blw bnx fx fy h1 h2 h3 h4 hfx hfy
  omega

/-- Witness for the amended C7 at the maximal samples and offsets. -/
theorem C7_accumulator_bound_witness :
    bilinearAccum 255 255 255 255 4095 4095 ≤ 255 * 2 ^ 24 ∧
    (255 * 2 ^ 24 : ℕ) < 2 ^ 33 ∧
    (255 ≤ 127 → 255 ≤ 127 → 255 ≤ 127 → 255 ≤ 127 →
      bilinearAccum 255 255 255 255 4095 4095 ≤ 2 ^ 31 - 1) :=
  C7_accumulator_bound 255 255 255 255 4095 4095 (by decide) (by decide) (by decide)
    (by decide) (by decide) (by decide)

/-- C10 is violated by the code: at the in-bounds fixed-point positions
(0, 4096) and (0, 8192) over a 2x2 source (4 samples), the in-bounds test of
both resamplers passes, yet the selected below-neighbor index (respectively
the base sample index itself) is 4, outside the width * height sample grid --
an out-of-bounds source read. -/
theorem C10_out_of_grid_read :
    (¬((0 : ℤ) > (2 : ℕ) * (int_multiple : ℤ) ∨ (0 : ℤ) < 0 ∨
       (4096 : ℤ) > (2 : ℕ) * (int_multiple : ℤ) ∨ (4096 : ℤ) < 0) ∧
     (neighborIndices 2 2 0 4096).2.2.1 = 4 ∧ ¬(neighborIndices 2 2 0 4096).2.2.1 < 2 * 2) ∧
    (¬((0 : ℤ) > (2 : ℕ) * (int_multiple : ℤ) ∨ (0 : ℤ) < 0 ∨
       (8192 : ℤ) > (2 : ℕ) * (int_multiple : ℤ) ∨ (8192 : ℤ) < 0) ∧
     (neighborIndices 2 2 0 8192).1 = 4 ∧ ¬(neighborIndices 2 2 0 8192).1 < 2 * 2) := by
  decide

lemma transform_matrix_at_identity_params (cosf sinf : ℚ → ℚ) (gpi : ℚ) (brush : GimpBrush)
    (hc : cosf 0 = 1) (hs : sinf 0 = 0) :
    gimp_brush_transform_matrix cosf sinf gpi brush 1 1 0 = gimp_matrix3_identity := by
  have ht : (-2 * gpi * 0 : ℚ) = 0 := by ring
  simp only [gimp_brush_transform_matrix, gimp_matrix3_translate, gimp_matrix3_rotate,
    gimp_matrix3_scale, gimp_matrix3_mult, translateMatrix, rotateMatrix, scaleMatrix,
    gimp_matrix3_identity, ht, hc, hs]
  simp only [GimpMatrix3.mk.injEq]
  norm_num

/-- C1: for every brush, calling the mask or pixmap transform with
scale_x = scale_y = 1 and angle = 0 (so that the rotation angle handed to the
math library is 0, whose cosine is 1 and sine is 0) takes the identity fast
path and returns a raster byte-for-byte identical to the source raster. -/
theorem C1_identity_fast_path (cosf sinf : ℚ → ℚ) (gpi : ℚ) (brush : GimpBrush)
    (hc : cosf 0 = 1) (hs : sinf 0 = 0) :
    gimp_brush_real_transform_mask cosf sinf gpi brush 1 1 0 = brush.mask ∧
    gimp_brush_real_transform_pixmap cosf sinf gpi brush 1 1 0 = brush.pixmap := by
  have hM := transform_matrix_at_identity_params cosf sinf gpi brush hc hs
  constructor
  · rw [gimp_brush_real_transform_mask, hM]
    simp [gimp_matrix3_is_identity, temp_buf_copy]
  · rw [gimp_brush_real_transform_pixmap, hM]
    simp [gimp_matrix3_is_identity, temp_buf_copy]

/-- Witness for C1 on a concrete 1x1 brush with the exact cosine/sine values of
angle 0. -/
theorem C1_identity_fast_path_witness :
    gimp_brush_real_transform_mask (fun _ => 1) (fun _ => 0) 3
        ⟨⟨1, 1, [5]⟩, ⟨1, 1, [(1, 2, 3)]⟩⟩ 1 1 0 =
      (⟨⟨1, 1, [5]⟩, ⟨1, 1, [(1, 2, 3)]⟩⟩ : GimpBrush).mask ∧
    gimp_brush_real_transform_pixmap (fun _ => 1) (fun _ => 0) 3
        ⟨⟨1, 1, [5]⟩, ⟨1, 1, [(1, 2, 3)]⟩⟩ 1 1 0 =
      (⟨⟨1, 1, [5]⟩, ⟨1, 1, [(1, 2, 3)]⟩⟩ : GimpBrush).pixmap :=
  C1_identity_fast_path (fun _ => 1) (fun _ => 0) 3 ⟨⟨1, 1, [5]⟩, ⟨1, 1, [(1, 2, 3)]⟩⟩ rfl rfl

lemma bounding_box_identity (brush : GimpBrush) :
    gimp_brush_transform_bounding_box brush gimp_matrix3_identity =
      ⟨0, 0, (brush.mask.width : ℤ), (brush.mask.height : ℤ)⟩ := by
  have hw : (0 : ℚ) ≤ (brush.mask.width : ℚ) := Nat.cast_nonneg _
  have hh : (0 : ℚ) ≤ (brush.mask.height : ℚ) := Nat.cast_nonneg _
  simp [gimp_brush_transform_bounding_box, transform_point_identity, min_eq_left hw,
    min_eq_left hh, max_eq_right hw, max_eq_right hh]

/-- C9: for every brush and every scale_x, scale_y, angle, the size-only query
returns exactly the width and height of the raster that the full mask
transform returns for the same inputs, including the identity fast-path case
where the copy keeps the source dimensions; the query itself only builds the
matrix and the bounding box, performing no resampling. -/
theorem C9_size_query (cosf sinf : ℚ → ℚ) (gpi : ℚ) (brush : GimpBrush)
    (scale_x scale_y angle : ℚ) :
    gimp_brush_real_transform_size cosf sinf gpi brush scale_x scale_y angle =
      (((gimp_brush_real_transform_mask cosf sinf gpi brush scale_x scale_y angle).width : ℤ),
       ((gimp_brush_real_transform_mask cosf sinf gpi brush scale_x scale_y angle).height : ℤ)) := by
  rw [gimp_brush_real_transform_size, gimp_brush_real_transform_mask]
  cases hid : gimp_matrix3_is_identity
      (gimp_brush_transform_matrix cosf sinf gpi brush scale_x scale_y angle)
  · simp only [hid, Bool.false_eq_true, if_false]
    obtain ⟨h1, h2⟩ := bounding_box_nonneg brush
      (gimp_brush_transform_matrix cosf sinf gpi brush scale_x scale_y angle)
    simp [Int.toNat_of_nonneg h1, Int.toNat_of_nonneg h2]
  · rw [gimp_matrix3_is_identity] at hid
    have hM := of_decide_eq_true hid
    rw [hM]
    simp [gimp_matrix3_is_identity, bounding_box_identity, temp_buf_copy]

lemma getD_replicate {α : Type} (n i : ℕ) (a d : α) :
    (List.replicate n a).getD i d = if i < n then a else d := by
  induction n generalizing i with
  | zero => simp
  | succ k ih =>
    cases i with
    | zero => simp [List.replicate]
    | succ j =>
      rw [List.replicate]
      simp only [List.getD_cons_succ, ih, Nat.add_lt_add_iff_right]

lemma bilinearAccum_zero (fx fy : ℕ) : bilinearAccum 0 0 0 0 fx fy = 0 := by
  simp [bilinearAccum]

lemma samplePixelPixmap_uniform (n sw sh : ℕ) (v : ℕ) (px py : ℤ) :
    samplePixelPixmap (List.replicate n (v, 0, 0)) sw sh px py =
      (samplePixelMask (List.replicate n v) sw sh px py, 0, 0) := by
  rw [samplePixelPixmap, samplePixelMask]
  by_cases hC : px > (sw : ℤ) * (int_multiple : ℤ) ∨ px < 0 ∨
      py > (sh : ℤ) * (int_multiple : ℤ) ∨ py < 0
  · rw [if_pos hC, if_pos hC]
  · rw [if_neg hC, if_neg hC]
    simp only [getD_replicate]
    split_ifs <;> simp [bilinearAccum_zero]

lemma pixmapRow_uniform (n sw sh : ℕ) (v : ℕ) (ux uy : ℤ) :
    ∀ (fuel : ℕ) (cx cy : ℤ),
      pixmapRow (List.replicate n (v, 0, 0)) sw sh ux uy fuel cx cy =
        (maskRow (List.replicate n v) sw sh ux uy fuel cx cy).map (fun m => (m, 0, 0)) := by
  intro fuel
  induction fuel with
  | zero => intro cx cy; rfl
  | succ k ih =>
    intro cx cy
    rw [pixmapRow, maskRow]
    simp only [List.map_cons, samplePixelPixmap_uniform, ih]

lemma pixmapRows_uniform (n sw sh dw : ℕ) (v : ℕ) (ux uy vx vy : ℤ) :
    ∀ (fuel : ℕ) (rx ry : ℤ),
      pixmapRows (List.replicate n (v, 0, 0)) sw sh dw ux uy vx vy fuel rx ry =
        (maskRows (List.replicate n v) sw sh dw ux uy vx vy fuel rx ry).map
          (fun m => (m, 0, 0)) := by
  intro fuel
  induction fuel with
  | zero => intro rx ry; rfl
  | succ k ih =>
    intro rx ry
    rw [pixmapRows, maskRows]
    simp only [List.map_append, pixmapRow_uniform, ih]

/-- C8: for every brush whose pixmap is uniformly (200, 0, 0) and whose mask is
the equivalent uniform single-channel raster of value 200 with the same
dimensions, and for every scale_x, scale_y, angle (with the trigonometric
functions and pi abstract), the first channel of the pixmap transform's output
equals the mask transform's output pixel for pixel, and the second and third
channels are uniformly 0. -/
theorem C8_channel_independence (cosf sinf : ℚ → ℚ) (gpi : ℚ) (brush : GimpBrush)
    (scale_x scale_y angle : ℚ)
    (hw : brush.pixmap.width = brush.mask.width)
    (hh : brush.pixmap.height = brush.mask.height)
    (hm : brush.mask.data = List.replicate (brush.mask.width * brush.mask.height) 200)
    (hp : brush.pixmap.data =
      List.replicate (brush.mask.width * brush.mask.height) (200, 0, 0)) :
    (gimp_brush_real_transform_pixmap cosf sinf gpi brush scale_x scale_y angle).data.map
        Prod.fst =
      (gimp_brush_real_transform_mask cosf sinf gpi brush scale_x scale_y angle).data ∧
    ∀ p ∈ (gimp_brush_real_transform_pixmap cosf sinf gpi brush scale_x scale_y angle).data,
      p.2.1 = 0 ∧ p.2.2 = 0 := by
  have hdata :
      (gimp_brush_real_transform_pixmap cosf sinf gpi brush scale_x scale_y angle).data =
        ((gimp_brush_real_transform_mask cosf sinf gpi brush scale_x scale_y angle).data).map
          (fun m => (m, 0, 0)) := by
    rw [gimp_brush_real_transform_pixmap, gimp_brush_real_transform_mask]
    cases hid : gimp_matrix3_is_identity
        (gimp_brush_transform_matrix cosf sinf gpi brush scale_x scale_y angle)
    · rw [if_neg Bool.false_ne_true, if_neg Bool.false_ne_true]
      rw [hw, hh, hm, hp]
      exact pixmapRows_uniform _ _ _ _ 200 _ _ _ _ _ _ _
    · rw [if_pos rfl, if_pos rfl]
      simp only [temp_buf_copy]
      rw [hm, hp, List.map_replicate]
  refine ⟨?_, ?_⟩
  · rw [hdata, List.map_map]
    have hcomp : (Prod.fst ∘ fun m : ℕ => ((m, 0, 0) : ℕ × ℕ × ℕ)) = id := rfl
    rw [hcomp, List.map_id]
  · intro p hp'
    rw [hdata] at hp'
    obtain ⟨m, _, rfl⟩ := List.mem_map.mp hp'
    exact ⟨rfl, rfl⟩

/-- Witness for C8 on a concrete 1x1 uniform brush with a 90-degree rotation
(cosine 0, sine 1), which does not take the identity fast path. -/
theorem C8_channel_independence_witness :
    (gimp_brush_real_transform_pixmap (fun _ => 0) (fun _ => 1) 3
        ⟨⟨1, 1, [200]⟩, ⟨1, 1, [(200, 0, 0)]⟩⟩ 1 1 1).data.map Prod.fst =
      (gimp_brush_real_transform_mask (fun _ => 0) (fun _ => 1) 3
        ⟨⟨1, 1, [200]⟩, ⟨1, 1, [(200, 0, 0)]⟩⟩ 1 1 1).data ∧
    ∀ p ∈ (gimp_brush_real_transform_pixmap (fun _ => 0) (fun _ => 1) 3
        ⟨⟨1, 1, [200]⟩, ⟨1, 1, [(200, 0, 0)]⟩⟩ 1 1 1).data,
      p.2.1 = 0 ∧ p.2.2 = 0 :=
  C8_channel_independence (fun _ => 0) (fun _ => 1) 3
    ⟨⟨1, 1, [200]⟩, ⟨1, 1, [(200, 0, 0)]⟩⟩ 1 1 1 rfl rfl rfl rfl
